import Mathlib

/-!
Formal model of the NeoForge AI pipeline core
(`core/file_system.py`, `core/groq_runner.py`, `core/orchestrator.py`,
`viz/server.py`), as a shallow embedding in Lean 4, together with proofs
settling the specification claims about it.

Paths are modelled with POSIX semantics: a path is a list of components,
`os.path.abspath`/`os.path.join` become explicit normalisation and
concatenation, and `os.path.commonpath([a, r]) == r` becomes "the components
of `r` are a prefix of the components of `a`" (both paths absolute and
normalised, so the Windows `ValueError` branch of `_assert_within_root`
cannot fire and is folded into the same refusal text it produces anyway).
The filesystem is a finite map from absolute paths to file contents plus a
set of directories, with the process-global working directory (`os.getcwd()`)
carried explicitly. Logging and the visualisation callbacks are
observational and not modelled.
-/

/-- A parsed path string: `os.path`'s view of a POSIX path, keeping whether it
was absolute and its non-empty components (`"a//b/"` and `"a/b"` agree). -/
structure PyPath where
  absolute : Bool
  comps : List String
deriving DecidableEq, Repr

/-- Split a character list at `/`, accumulating the current component in
reverse (structural recursion, so concrete paths evaluate in the kernel). -/
def splitSlash (cur : List Char) : List Char → List String
  | [] => [String.mk cur.reverse]
  | c :: rest =>
    if c = '/' then String.mk cur.reverse :: splitSlash [] rest
    else splitSlash (c :: cur) rest

/-- Parse a raw path string the way `os.path.join`/`abspath` consume it. -/
def parsePath (s : String) : PyPath :=
  { absolute := match s.data with | '/' :: _ => true | _ => false
    comps := (splitSlash [] s.data).filter (fun c => c ≠ "") }

/-- Component normalisation done by `os.path.abspath`: `.` is dropped and
`..` pops the previous component (staying at the root when there is none).
The accumulator holds the already-normalised components in reverse. -/
def normComps : List String → List String → List String
  | acc, [] => acc.reverse
  | acc, c :: rest =>
    if c = "." then normComps acc rest
    else if c = ".." then normComps (acc.drop 1) rest
    else normComps (c :: acc) rest

/-- Python `os.path.join(root, path)`: an absolute `path` discards `root`. -/
def osJoin (root : List String) (p : PyPath) : List String :=
  if p.absolute then p.comps else root ++ p.comps

/-- Python `os.path.abspath(os.path.join(root, path))` for an absolute, normalised
`root` given by its components. -/
def resolvePath (root : List String) (path : String) : List String :=
  normComps [] (osJoin root (parsePath path))

/-- Python `os.path.commonpath([absPath, root]) == root` for absolute normalised
paths: `root` is a component-prefix of `absPath` (descendant-or-self). -/
def isDescendantOf (absPath root : List String) : Bool :=
  root.isPrefixOf absPath

/-- The refusal text produced by `FileSystem._assert_within_root`. -/
def securityViolation (action : String) : String :=
  "Error: Security violation. Cannot " ++ action ++ " outside project root."

/-- Embeds `FileSystem._assert_within_root(abs_path, path, action, project_root)`:
`some err` when the resolved path escapes the root, else `none`. -/
def assertWithinRoot (absPath : List String) (action : String)
    (projectRoot : List String) : Option String :=
  if isDescendantOf absPath projectRoot then none
  else some (securityViolation action)

/-- Filesystem state: files as an association list from absolute paths to
contents, a set of existing directories, and the process working directory
(`os.getcwd()`), carried explicitly because `write_file`/`read_file`/
`list_dir` fall back to it when `project_root` is falsy. -/
structure FS where
  files : List (List String × String)
  dirs : List (List String)
  cwd : List String
deriving DecidableEq, Repr

/-- Insert-or-replace a file binding. -/
def setFile (p : List String) (c : String) :
    List (List String × String) → List (List String × String)
  | [] => [(p, c)]
  | (q, d) :: rest =>
    if q = p then (p, c) :: rest else (q, d) :: setFile p c rest

/-- All prefixes of a component path, shortest first (the chain of
directories `os.makedirs` ensures). -/
def pathPrefixes (p : List String) : List (List String) :=
  (List.range (p.length + 1)).map (fun i => p.take i)

/-- Python `os.makedirs(p, exist_ok=True)`: create the directory and every missing
ancestor. -/
def FS.makedirs (fs : FS) (p : List String) : FS :=
  { fs with dirs :=
      fs.dirs ++ (pathPrefixes p).filter (fun d => ¬ fs.dirs.contains d) }

/-- Python `os.path.exists`: true for files and directories alike. -/
def FS.pathExists (fs : FS) (p : List String) : Bool :=
  (fs.files.lookup p).isSome || fs.dirs.contains p

/-- Immediate child entry names of a directory, as `os.listdir` returns
them (here: in the deterministic order of the state's lists). -/
def FS.children (fs : FS) (p : List String) : List String :=
  (fs.files.map Prod.fst ++ fs.dirs).filterMap
    (fun q => if q.length = p.length + 1 ∧ p.isPrefixOf q then q.getLast? else none)

/-- Embeds `FileSystem.write_file(path, content, project_root)`. Returns the result
text and the new filesystem. `project_root or os.getcwd()` becomes
`(projectRoot.getD fs.cwd)` (callers pass `None` or a real root). I/O
failures of `open` itself are not modelled. -/
def write_file (path content : String) (projectRoot : Option (List String))
    (fs : FS) : String × FS :=
  let root := projectRoot.getD fs.cwd
  let absPath := resolvePath root path
  match assertWithinRoot absPath "write" root with
  | some err => (err, fs)
  | none =>
    let fs' := fs.makedirs absPath.dropLast
    ("Successfully wrote to " ++ path,
     { fs' with files := setFile absPath content fs'.files })

/-- Embeds `FileSystem.read_file(path, project_root)`. A resolved path that exists
but is a directory makes `open` raise, caught into the generic error text. -/
def read_file (path : String) (projectRoot : Option (List String))
    (fs : FS) : String :=
  let root := projectRoot.getD fs.cwd
  let absPath := resolvePath root path
  match assertWithinRoot absPath "read" root with
  | some err => err
  | none =>
    if fs.pathExists absPath then
      match fs.files.lookup absPath with
      | some content => content
      | none => "Error reading file: Is a directory: " ++ path
    else "Error: File " ++ path ++ " does not exist."

/-- Embeds `FileSystem.list_dir(path, project_root)`. Note: the source performs no
containment check here — it resolves against the root and lists. A resolved
path that is a file makes `os.listdir` raise, caught into the generic error
text. -/
def list_dir (path : String) (projectRoot : Option (List String))
    (fs : FS) : String :=
  let root := projectRoot.getD fs.cwd
  let absPath := resolvePath root path
  if fs.pathExists absPath then
    if (fs.files.lookup absPath).isSome then
      "Error listing directory: Not a directory: " ++ path
    else String.intercalate "\n" (fs.children absPath)
  else "Error: Directory " ++ path ++ " does not exist."

/-!
## The Execution Engine: `groq_runner.run_agent`

The chat endpoint is an oracle `env : ℕ → ApiOutcome` giving the outcome of
the `attempt`-th `chat.completions.create` call — either a response
(terminal content and tool calls) or a raised exception's string. Python's
`"rate_limit_exceeded" in error_str` dispatch becomes substring containment
on the character list. `random.uniform(0, 5)` is an oracle `jit : ℕ → ℚ`;
`time.sleep(wait)` is recorded in a `sleeps` log. The loop is given explicit
fuel; `run_agent` supplies fuel strictly above the combined budget measure,
which the termination theorem shows is never exhausted. -/

/-- Does `sub` occur as a contiguous run of `l` (structural recursion)? -/
def containsSubList (sub : List Char) : List Char → Bool
  | [] => sub.isEmpty
  | c :: rest => sub.isPrefixOf (c :: rest) || containsSubList sub rest

/-- Python's `sub in s` substring test. -/
def strContains (s sub : String) : Bool :=
  containsSubList sub.data s.data

/-- One tool call from a model response: `tool_call.function.arguments` is
`none` when `json.loads` fails (`json.JSONDecodeError`), otherwise the
parsed JSON object as a string-valued mapping. -/
structure ToolCall where
  id : String
  name : String
  arguments : Option (List (String × String))
deriving DecidableEq, Repr

/-- A conversation message (`messages` list entries). -/
inductive ChatMsg where
  | system (content : String)
  | user (content : String)
  | assistant (content : Option String) (toolCalls : List ToolCall)
  | tool (toolCallId : String) (content : String)
deriving DecidableEq, Repr

/-- Outcome of one `chat.completions.create` attempt: a response message
(`content` may be `None`, plus its tool calls), or the string of a raised
exception. -/
inductive ApiOutcome where
  | ok (content : Option String) (toolCalls : List ToolCall)
  | apiError (errorStr : String)

/-- The corrective user message injected after a malformed tool call. -/
def correctiveText : String :=
  "Your previous tool call was malformed. You MUST call tools using the provided JSON function schema — do NOT use XML-style <function=...> syntax. Please retry."

/-- The tool-result text fed back when tool arguments fail to parse. -/
def parseErrorText : String :=
  "Error: Could not parse tool arguments. Please retry with valid JSON."

/-- Embeds `groq_runner._execute_tool(name, args, project_root)`: dispatch to the
sandboxed filesystem. A missing `path`/`content` key raises (`KeyError`),
modelled as `.error`. -/
def execute_tool (name : String) (args : List (String × String))
    (projectRoot : List String) (fs : FS) : Except String (String × FS) :=
  if name = "write_file" then
    match args.lookup "path", args.lookup "content" with
    | some p, some c => .ok (write_file p c (some projectRoot) fs)
    | _, _ => .error "KeyError"
  else if name = "read_file" then
    match args.lookup "path" with
    | some p => .ok (read_file p (some projectRoot) fs, fs)
    | none => .error "KeyError"
  else .ok ("Unknown tool: " ++ name, fs)

/-- Loop state of `run_agent` (the local variables of the `while` loop, plus
the conversation, the filesystem, the attempt counter indexing the oracle,
and the log of backoff sleeps). -/
structure AgentState where
  messages : List ChatMsg
  fs : FS
  toolCallsMade : ℕ
  rateLimitHits : ℕ
  toolFailRetries : ℕ
  clientIdx : ℕ
  cycleCount : ℕ
  attempt : ℕ
  sleeps : List ℚ
deriving DecidableEq, Repr

/-- Constant `max_tool_calls = 25` (productive-call budget). -/
def max_tool_calls : ℕ := 25

/-- Constant `max_rate_retries = 30` (rate-limit-hit budget). -/
def max_rate_retries : ℕ := 30

/-- Constant `max_tool_fail_retries = 2` (malformed tool-call repair budget). -/
def max_tool_fail_retries : ℕ := 2

/-- Constant `base_wait = 20` seconds. -/
def base_wait : ℚ := 20

/-- Formula `wait = base_wait * (2 ** (cycle_count - 1)) + jitter`. -/
def backoffWait (cycleCount : ℕ) (jitter : ℚ) : ℚ :=
  base_wait * 2 ^ (cycleCount - 1) + jitter

/-- The `for tool_call in msg.tool_calls` loop: unparsable arguments append
the parse-error tool result and `continue`; otherwise the tool is dispatched
and its result appended keyed by the call id. A `KeyError` from
`_execute_tool` propagates. -/
def processToolCalls (projectRoot : List String) :
    List ToolCall → List ChatMsg → FS → Except String (List ChatMsg × FS)
  | [], msgs, fs => .ok (msgs, fs)
  | tc :: rest, msgs, fs =>
    match tc.arguments with
    | none => processToolCalls projectRoot rest (msgs ++ [.tool tc.id parseErrorText]) fs
    | some args =>
      match execute_tool tc.name args projectRoot fs with
      | .error e => .error e
      | .ok (result, fs') =>
        processToolCalls projectRoot rest (msgs ++ [.tool tc.id result]) fs'

/-- Result of the fueled loop: a returned string with the final state, a
propagated exception, or fuel exhaustion (shown unreachable). -/
inductive RunRes where
  | done (text : String) (st : AgentState)
  | fatal (err : String)
  | fuelOut
deriving DecidableEq, Repr

/-- The combined budget measure: every loop iteration strictly decreases it
(each iteration increments exactly one bounded counter). -/
def loopMeasure (st : AgentState) : ℕ :=
  (max_tool_calls - st.toolCallsMade) + (max_rate_retries - st.rateLimitHits) +
    (max_tool_fail_retries - st.toolFailRetries)

/-- The rate-limit branch of the loop body: count the hit, rotate the key,
and if rotation wrapped back to the first key treat the pool as exhausted for
this cycle — bump `cycle_count` and sleep for the backoff wait (recorded in
`sleeps`). The productive-call counter and the conversation are untouched. -/
def rateLimitStep (n : ℕ) (jit : ℕ → ℚ) (st : AgentState) : AgentState :=
  if (st.clientIdx + 1) % n = 0 then
    { st with rateLimitHits := st.rateLimitHits + 1,
              attempt := st.attempt + 1,
              clientIdx := (st.clientIdx + 1) % n,
              cycleCount := st.cycleCount + 1,
              sleeps := st.sleeps ++
                [backoffWait (st.cycleCount + 1) (jit st.attempt)] }
  else
    { st with rateLimitHits := st.rateLimitHits + 1,
              attempt := st.attempt + 1,
              clientIdx := (st.clientIdx + 1) % n }

/-- The `while tool_calls_made < max_tool_calls and rate_limit_hits <
max_rate_retries` loop of `run_agent`, with one unit of fuel per iteration.
`n` is the credential pool size (`len(clients)`). -/
def runLoop (n : ℕ) (env : ℕ → ApiOutcome) (jit : ℕ → ℚ)
    (projectRoot : List String) : ℕ → AgentState → RunRes
  | 0, _ => .fuelOut
  | fuel + 1, st =>
    if st.toolCallsMade < max_tool_calls ∧ st.rateLimitHits < max_rate_retries then
      match env st.attempt with
      | .apiError estr =>
        if strContains estr "rate_limit_exceeded" then
          -- rotate to the next key without consuming a tool-call slot
          runLoop n env jit projectRoot fuel (rateLimitStep n jit st)
        else if strContains estr "tool_use_failed" ∧
            st.toolFailRetries < max_tool_fail_retries then
          runLoop n env jit projectRoot fuel
            { st with toolFailRetries := st.toolFailRetries + 1,
                      attempt := st.attempt + 1,
                      messages := st.messages ++ [.user correctiveText] }
        else .fatal estr
      | .ok content toolCalls =>
        -- successful API call: reset cycle state, count the productive call
        let st' := { st with cycleCount := 0,
                             toolCallsMade := st.toolCallsMade + 1,
                             attempt := st.attempt + 1 }
        match toolCalls with
        | [] => .done (content.getD "") st'
        | _ =>
          match processToolCalls projectRoot toolCalls
              (st'.messages ++ [.assistant content toolCalls]) st'.fs with
          | .error e => .fatal e
          | .ok (msgs', fs') =>
            runLoop n env jit projectRoot fuel
              { st' with messages := msgs', fs := fs' }
    else
      if st.rateLimitHits ≥ max_rate_retries then
        .done ("Agent aborted: rate limit hit " ++ toString st.rateLimitHits ++
          " times.") st
      else .done "Agent reached max tool calls." st

/-- The initial loop state of `run_agent(system_prompt, user_message, ...)`. -/
def initState (systemPrompt userMessage : String) (fs : FS) : AgentState :=
  { messages := [.system systemPrompt, .user userMessage], fs := fs,
    toolCallsMade := 0, rateLimitHits := 0, toolFailRetries := 0,
    clientIdx := 0, cycleCount := 0, attempt := 0, sleeps := [] }

/-- Embeds `groq_runner.run_agent`: drive the loop from the initial two-message
conversation, with fuel strictly above the initial budget measure. -/
def run_agent (systemPrompt userMessage : String) (n : ℕ)
    (env : ℕ → ApiOutcome) (jit : ℕ → ℚ) (projectRoot : List String)
    (fs : FS) : RunRes :=
  runLoop n env jit projectRoot
    (loopMeasure (initState systemPrompt userMessage fs) + 1)
    (initState systemPrompt userMessage fs)

/-!
## The Credential Pool: `groq_runner.build_client_pool`

The environment is an oracle `env : String → String` giving `os.getenv(name,
"")`. The pool is the list of accepted key strings in slot order; the
per-key `OpenAI` client construction and the masked-key logging are
observational. Python's falsy test `if key` on the stripped string becomes
`≠ ""`. -/

/-- Python whitespace as stripped by `str.strip()`. -/
def isPySpace (c : Char) : Bool :=
  c = ' ' || c = '\t' || c = '\n' || c = '\r' || c = '\x0b' || c = '\x0c'

/-- Python `str.strip()`. -/
def pyStrip (s : String) : String :=
  String.mk (((s.data.dropWhile isPySpace).reverse.dropWhile isPySpace).reverse)

/-- Python `str.startswith(pre)`. -/
def pyStartsWith (s pre : String) : Bool :=
  pre.data.isPrefixOf s.data

/-- The five environment slots read, in order: `GROQ_API_KEY` then
`GROQ_API_KEY_2` … `GROQ_API_KEY_5`. -/
def keySlots : List String :=
  ["GROQ_API_KEY", "GROQ_API_KEY_2", "GROQ_API_KEY_3", "GROQ_API_KEY_4",
   "GROQ_API_KEY_5"]

/-- A raw slot value yields a pool member iff it is non-empty after stripping
and its stripped form is not a `your_` placeholder. -/
def validCred (raw : String) : Prop :=
  pyStrip raw ≠ "" ∧ pyStartsWith (pyStrip raw) "your_" = false

instance (raw : String) : Decidable (validCred raw) := by
  unfold validCred; infer_instance

/-- Embeds `groq_runner.build_client_pool()`: collect the primary key and keys 2–5,
each stripped and filtered; raise `ValueError` (modelled as `.error`) when
none survive. -/
def build_client_pool (env : String → String) : Except String (List String) :=
  let primary := pyStrip (env "GROQ_API_KEY")
  let keys : List String :=
    if primary ≠ "" ∧ pyStartsWith primary "your_" = false then [primary]
    else []
  let keys := ([2, 3, 4, 5] : List ℕ).foldl
    (fun ks i =>
      let key := pyStrip (env ("GROQ_API_KEY_" ++ toString i))
      if key ≠ "" ∧ pyStartsWith key "your_" = false then ks ++ [key] else ks)
    keys
  if keys = [] then
    .error "No valid GROQ API keys found. Set GROQ_API_KEY in .env"
  else .ok keys

/-!
## The Phase Pipeline: `Orchestrator.run`

A phase's Execution Engine run is abstracted by an oracle `agentEnv : ℕ → FS
→ FS` giving the filesystem effect of the `i`-th `call(...)` (its returned
text is ignored by the orchestrator, which only checks artifacts on disk).
Logging and `VizState` updates are observational. `Orchestrator.__init__`
builds the client pool before `run` can be reached. -/

/-- Embeds `file_system.PROJECT_SUBDIRS`. -/
def PROJECT_SUBDIRS : List String := ["src", "tests", "frontend", "logs"]

/-- Result of `Orchestrator.run`: `error` is the `RuntimeError` message when
the run aborted, `started` lists the agents whose conversations were
invoked, in order, and `fs` is the final filesystem. -/
structure OrchOutcome where
  error : Option String
  started : List String
  fs : FS
deriving DecidableEq, Repr

/-- Embeds `Orchestrator.run(user_requirement, project_dir)`: create the standard
subdirectories, then the six phase calls; existence checks follow phases 1a,
1b and 2 only. -/
def orchestratorRun (agentEnv : ℕ → FS → FS) (projectDir : List String)
    (fs0 : FS) : OrchOutcome :=
  let fs := PROJECT_SUBDIRS.foldl (fun f sd => f.makedirs (projectDir ++ [sd])) fs0
  -- Phase 1a: PM writes PRD.md
  let fs1 := agentEnv 0 fs
  if fs1.pathExists (projectDir ++ ["PRD.md"]) then
    -- Phase 1b: PM writes ARCHITECTURE.md
    let fs2 := agentEnv 1 fs1
    if fs2.pathExists (projectDir ++ ["ARCHITECTURE.md"]) then
      -- Phase 2: TL writes TASK_LIST.json
      let fs3 := agentEnv 2 fs2
      if fs3.pathExists (projectDir ++ ["TASK_LIST.json"]) then
        -- Phases 3–5: Developer, Validator, Tester — no artifact checks
        let fs4 := agentEnv 3 fs3
        let fs5 := agentEnv 4 fs4
        let fs6 := agentEnv 5 fs5
        { error := none,
          started := ["Project Manager", "Architect", "Team Lead", "Developer",
            "Backend Logic Validator", "QA Tester"],
          fs := fs6 }
      else
        { error := some "TASK_LIST.json not created by Team Lead agent.",
          started := ["Project Manager", "Architect", "Team Lead"], fs := fs3 }
    else
      { error := some "ARCHITECTURE.md not created by Architect agent.",
        started := ["Project Manager", "Architect"], fs := fs2 }
  else
    { error := some "PRD.md not created by Project Manager agent.",
      started := ["Project Manager"], fs := fs1 }

/-- Embeds `main.main` after the project directory exists: `Orchestrator()` (whose
`__init__` calls `build_client_pool`) and then `Orchestrator.run`. A
configuration failure therefore precedes every phase. -/
def mainPipeline (env : String → String) (agentEnv : ℕ → FS → FS)
    (projectDir : List String) (fs0 : FS) : Except String OrchOutcome :=
  match build_client_pool env with
  | .error e => .error e
  | .ok _ => .ok (orchestratorRun agentEnv projectDir fs0)

/-!
## The Progress Sink: `viz.server.VizState`

The class-level shared state becomes an explicit record threaded through
`update`; the lock is observational (the claims are about the values). The
`deque(maxlen=50)` keeps the most recent 50 appended lines. -/

/-- Embeds the `VizState` class attributes. -/
structure VizState where
  active_agent : String
  current_task : String
  messages : List String
deriving DecidableEq, Repr

/-- The last `k` elements of a list (all of it when shorter), as
`deque(maxlen=k)` retention and Python's `list(xs)[-k:]` slicing. -/
def takeRight (k : ℕ) (l : List α) : List α :=
  l.drop (l.length - k)

/-- The initial class attribute values. -/
def VizState.initial : VizState :=
  { active_agent := "Idle", current_task := "Waiting...", messages := [] }

/-- Embeds `VizState.update(agent, task, message=None)`: set the current agent and
task; a truthy `message` is appended, the deque dropping the oldest line
beyond 50. -/
def VizState.update (agent task : String) (message : Option String)
    (s : VizState) : VizState :=
  { s with active_agent := agent, current_task := task,
           messages :=
             match message with
             | some m => if m ≠ "" then takeRight 50 (s.messages ++ [m])
                         else s.messages
             | none => s.messages }

/-- The snapshot returned by `VizState.get_snapshot()`. -/
structure VizSnapshot where
  agent : String
  task : String
  logs : List String
deriving DecidableEq, Repr

/-- Embeds `VizState.get_snapshot()`: the current agent, task, and the last 5
retained log lines (`list(cls.messages)[-5:]`). -/
def VizState.get_snapshot (s : VizState) : VizSnapshot :=
  { agent := s.active_agent, task := s.current_task,
    logs := takeRight 5 s.messages }

/-- One observed `update` call: agent, task, optional log line. -/
def updFold (s : VizState) (ev : String × String × Option String) : VizState :=
  VizState.update ev.1 ev.2.1 ev.2.2 s

/-- Replaying a whole history of `update` calls from the initial state. -/
def replayViz (evs : List (String × String × Option String)) : VizState :=
  evs.foldl updFold VizState.initial

/-- The log lines actually appended by a history (truthy messages only). -/
def loggedLines (evs : List (String × String × Option String)) : List String :=
  evs.filterMap (fun ev =>
    match ev.2.2 with
    | some m => if m ≠ "" then some m else none
    | none => none)

/-- The filesystem after phase `i`'s Execution Engine call, starting from the
prepared workspace. -/
def phaseFS (agentEnv : ℕ → FS → FS) (projectDir : List String) (fs0 : FS) :
    ℕ → FS
  | 0 => agentEnv 0
      (PROJECT_SUBDIRS.foldl (fun f sd => f.makedirs (projectDir ++ [sd])) fs0)
  | i + 1 => agentEnv (i + 1) (phaseFS agentEnv projectDir fs0 i)

/-- Claim C2: if the resolved absolute path of `p` is not a descendant of the
caller-supplied project root, `write_file` returns the containment-violation
error text and leaves the filesystem unchanged (no file written, no directory
created), and `read_file` returns the containment-violation error text. -/
theorem write_read_escape_refused (path content : String) (root : List String)
    (fs : FS) (h : isDescendantOf (resolvePath root path) root = false) :
    (write_file path content (some root) fs).1 = securityViolation "write" ∧
    (write_file path content (some root) fs).2 = fs ∧
    read_file path (some root) fs = securityViolation "read" := by
  unfold write_file read_file assertWithinRoot
  simp [h]

/-- Witness for C2 at the escaping path `"../evil.txt"` under root
`/home/proj`. -/
theorem write_read_escape_refused_witness :
    (write_file "../evil.txt" "x" (some ["home", "proj"])
        ⟨[(["home", "proj", "a.txt"], "A")], [["home", "proj"]], ["home", "proj"]⟩).1 =
      securityViolation "write" ∧
    (write_file "../evil.txt" "x" (some ["home", "proj"])
        ⟨[(["home", "proj", "a.txt"], "A")], [["home", "proj"]], ["home", "proj"]⟩).2 =
      ⟨[(["home", "proj", "a.txt"], "A")], [["home", "proj"]], ["home", "proj"]⟩ ∧
    read_file "../evil.txt" (some ["home", "proj"])
        ⟨[(["home", "proj", "a.txt"], "A")], [["home", "proj"]], ["home", "proj"]⟩ =
      securityViolation "read" :=
  write_read_escape_refused "../evil.txt" "x" ["home", "proj"] _ (by decide)

/-- Claim C3, counterexample: `list_dir` performs no containment check. Listing the
escaping path `"../outside"` returns that directory's contents
(`"secret.txt"`), not the containment-violation error. -/
theorem list_dir_escape_not_refused :
    list_dir "../outside" (some ["home", "proj"])
        ⟨[(["home", "outside", "secret.txt"], "s")], [["home", "outside"]],
          ["home", "proj"]⟩ = "secret.txt" ∧
    ("secret.txt" : String) ≠ securityViolation "list" := by decide

/-- Claim C3, amended: on an escaping path, `write_file` and `read_file` refuse with
the containment-violation error, but `list_dir` has no containment check: on
an escaping path resolving to an existing directory it returns the joined
directory contents. -/
theorem sandbox_escape_write_read_refused_list_unchecked
    (path content : String) (root : List String) (fs : FS)
    (h : isDescendantOf (resolvePath root path) root = false) :
    (write_file path content (some root) fs).1 = securityViolation "write" ∧
    read_file path (some root) fs = securityViolation "read" ∧
    (fs.pathExists (resolvePath root path) = true →
      fs.files.lookup (resolvePath root path) = none →
      list_dir path (some root) fs =
        String.intercalate "\n" (fs.children (resolvePath root path))) := by
  refine ⟨?_, ?_, ?_⟩
  · unfold write_file assertWithinRoot; simp [h]
  · unfold read_file assertWithinRoot; simp [h]
  · intro hex hnf
    unfold list_dir
    simp [hex, hnf]

/-- Witness for the amended C3 at the escaping path `"../outside"`. -/
theorem sandbox_escape_list_unchecked_witness :
    (write_file "../outside" "x" (some ["home", "proj"])
        ⟨[(["home", "outside", "secret.txt"], "s")], [["home", "outside"]],
          ["home", "proj"]⟩).1 = securityViolation "write" ∧
    read_file "../outside" (some ["home", "proj"])
        ⟨[(["home", "outside", "secret.txt"], "s")], [["home", "outside"]],
          ["home", "proj"]⟩ = securityViolation "read" ∧
    list_dir "../outside" (some ["home", "proj"])
        ⟨[(["home", "outside", "secret.txt"], "s")], [["home", "outside"]],
          ["home", "proj"]⟩ =
      String.intercalate "\n"
        (FS.children
          ⟨[(["home", "outside", "secret.txt"], "s")], [["home", "outside"]],
            ["home", "proj"]⟩ (resolvePath ["home", "proj"] "../outside")) := by
  have h := sandbox_escape_write_read_refused_list_unchecked "../outside" "x"
    ["home", "proj"]
    ⟨[(["home", "outside", "secret.txt"], "s")], [["home", "outside"]],
      ["home", "proj"]⟩ (by decide)
  exact ⟨h.1, h.2.1, h.2.2 (by decide) (by decide)⟩

/-- Claim C4, counterexample: with the project root omitted (as the legacy CrewAI
tool wrappers do), the operations resolve against the process working
directory: the same call writes to a different file when only the working
directory differs. -/
theorem write_root_omitted_uses_cwd :
    (write_file "f.txt" "x" none ⟨[], [["a"]], ["a"]⟩).2.files =
      [(["a", "f.txt"], "x")] ∧
    (write_file "f.txt" "x" none ⟨[], [["b"]], ["b"]⟩).2.files =
      [(["b", "f.txt"], "x")] ∧
    (["a", "f.txt"] : List String) ≠ ["b", "f.txt"] := by decide

lemma write_file_cwd (path content : String) (r : List String) (fs : FS)
    (c' : List String) :
    write_file path content (some r) { fs with cwd := c' } =
      ((write_file path content (some r) fs).1,
        { (write_file path content (some r) fs).2 with cwd := c' }) := by
  unfold write_file
  cases hw : assertWithinRoot (resolvePath r path) "write" r <;>
    simp [hw, FS.makedirs]

lemma read_file_cwd (path : String) (r : List String) (fs : FS)
    (c' : List String) :
    read_file path (some r) { fs with cwd := c' } =
      read_file path (some r) fs := by
  unfold read_file
  cases hw : assertWithinRoot (resolvePath r path) "read" r <;>
    simp [hw, FS.pathExists]

lemma list_dir_cwd (path : String) (r : List String) (fs : FS)
    (c' : List String) :
    list_dir path (some r) { fs with cwd := c' } =
      list_dir path (some r) fs := by
  unfold list_dir
  simp [FS.pathExists, FS.children]

/-- Claim C4, amended: when the caller supplies a project root, all three operations
resolve against it and are independent of the process working directory; the
working directory is consulted only when the root is omitted. -/
theorem supplied_root_ignores_cwd (path content : String) (r : List String)
    (fs : FS) (c' : List String) :
    (write_file path content (some r) { fs with cwd := c' }).1 =
      (write_file path content (some r) fs).1 ∧
    (write_file path content (some r) { fs with cwd := c' }).2.files =
      (write_file path content (some r) fs).2.files ∧
    (write_file path content (some r) { fs with cwd := c' }).2.dirs =
      (write_file path content (some r) fs).2.dirs ∧
    read_file path (some r) { fs with cwd := c' } =
      read_file path (some r) fs ∧
    list_dir path (some r) { fs with cwd := c' } =
      list_dir path (some r) fs := by
  rw [write_file_cwd, read_file_cwd, list_dir_cwd]
  simp

/-- Claim C5: in any loop iteration whose API attempt fails with a rate-limit
error, the loop continues with exactly the rate-limit update: the
rate-limit-hit counter is incremented, the client index advances round-robin,
and the productive-call counter, the conversation messages and the
filesystem are all unchanged — for any pool size, state and oracle. -/
theorem rate_limit_frame (n : ℕ) (env : ℕ → ApiOutcome) (jit : ℕ → ℚ)
    (root : List String) (fuel : ℕ) (st : AgentState) (estr : String)
    (henv : env st.attempt = .apiError estr)
    (hrl : strContains estr "rate_limit_exceeded" = true)
    (hc : st.toolCallsMade < max_tool_calls)
    (hr : st.rateLimitHits < max_rate_retries) :
    runLoop n env jit root (fuel + 1) st =
      runLoop n env jit root fuel (rateLimitStep n jit st) ∧
    (rateLimitStep n jit st).rateLimitHits = st.rateLimitHits + 1 ∧
    (rateLimitStep n jit st).clientIdx = (st.clientIdx + 1) % n ∧
    (rateLimitStep n jit st).toolCallsMade = st.toolCallsMade ∧
    (rateLimitStep n jit st).messages = st.messages ∧
    (rateLimitStep n jit st).fs = st.fs := by
  refine ⟨?_, ?_⟩
  · simp only [runLoop]
    simp [henv, hrl, hc, hr]
  · unfold rateLimitStep
    by_cases hidx : (st.clientIdx + 1) % n = 0 <;> simp [hidx]

/-- Witness for C5: a 2-key pool whose first attempt rate-limits. -/
theorem rate_limit_frame_witness :
    runLoop 2 (fun _ => .apiError "rate_limit_exceeded") (fun _ => 0) []
        (5 + 1) (initState "s" "u" ⟨[], [], []⟩) =
      runLoop 2 (fun _ => .apiError "rate_limit_exceeded") (fun _ => 0) [] 5
        (rateLimitStep 2 (fun _ => 0) (initState "s" "u" ⟨[], [], []⟩)) ∧
    (rateLimitStep 2 (fun _ => 0) (initState "s" "u" ⟨[], [], []⟩)).rateLimitHits = 1 ∧
    (rateLimitStep 2 (fun _ => 0) (initState "s" "u" ⟨[], [], []⟩)).toolCallsMade = 0 := by
  have h := rate_limit_frame 2 (fun _ => .apiError "rate_limit_exceeded")
    (fun _ => 0) [] 5 (initState "s" "u" ⟨[], [], []⟩) "rate_limit_exceeded"
    rfl (by decide) (by decide) (by decide)
  exact ⟨h.1, h.2.1, h.2.2.2.1⟩

/-- Claim C6: a rate-limited attempt makes the loop continue with the rate-limit
update; that update records a backoff sleep of
`base_wait * 2 ^ (cycle - 1) + jitter` and bumps the exhaustion cycle exactly
when rotation wraps back to the first credential, and otherwise sleeps not at
all; and for jitters in `[0, 5)` the computed wait strictly increases across
consecutive exhaustion cycles. -/
theorem exhaustion_backoff (n : ℕ) (env : ℕ → ApiOutcome) (jit : ℕ → ℚ)
    (root : List String) (fuel : ℕ) (st : AgentState) (estr : String)
    (henv : env st.attempt = .apiError estr)
    (hrl : strContains estr "rate_limit_exceeded" = true)
    (hc : st.toolCallsMade < max_tool_calls)
    (hr : st.rateLimitHits < max_rate_retries) :
    runLoop n env jit root (fuel + 1) st =
      runLoop n env jit root fuel (rateLimitStep n jit st) ∧
    ((st.clientIdx + 1) % n = 0 →
      (rateLimitStep n jit st).cycleCount = st.cycleCount + 1 ∧
      (rateLimitStep n jit st).sleeps =
        st.sleeps ++ [backoffWait (st.cycleCount + 1) (jit st.attempt)]) ∧
    ((st.clientIdx + 1) % n ≠ 0 →
      (rateLimitStep n jit st).cycleCount = st.cycleCount ∧
      (rateLimitStep n jit st).sleeps = st.sleeps) ∧
    (∀ c : ℕ, 1 ≤ c → ∀ j₁ j₂ : ℚ, 0 ≤ j₁ → j₁ < 5 → 0 ≤ j₂ → j₂ < 5 →
      backoffWait c j₁ < backoffWait (c + 1) j₂) := by
  refine ⟨?_, ?_, ?_, ?_⟩
  · simp only [runLoop]
    simp [henv, hrl, hc, hr]
  · intro hidx; unfold rateLimitStep; simp [hidx]
  · intro hidx; unfold rateLimitStep; simp [hidx]
  · intro c hc1 j₁ j₂ hj₁ hj₁5 hj₂ hj₂5
    unfold backoffWait base_wait
    have hcc : c - 1 + 1 = c := by omega
    have h2 : (1 : ℚ) ≤ 2 ^ (c - 1) := one_le_pow₀ (by norm_num)
    have hx : (2 : ℚ) ^ c = 2 * 2 ^ (c - 1) := by
      conv_lhs => rw [← hcc]
      rw [pow_succ]; ring
    simp only [Nat.add_sub_cancel]
    rw [hx]
    linarith

/-- Witness for C6: single-key pool (every hit wraps), jitters 1 and 0. -/
theorem exhaustion_backoff_witness :
    runLoop 1 (fun _ => .apiError "rate_limit_exceeded") (fun _ => 1) []
        (5 + 1) (initState "s" "u" ⟨[], [], []⟩) =
      runLoop 1 (fun _ => .apiError "rate_limit_exceeded") (fun _ => 1) [] 5
        (rateLimitStep 1 (fun _ => 1) (initState "s" "u" ⟨[], [], []⟩)) ∧
    (rateLimitStep 1 (fun _ => 1) (initState "s" "u" ⟨[], [], []⟩)).sleeps =
      [backoffWait 1 1] ∧
    backoffWait 1 1 < backoffWait (1 + 1) 0 := by
  have h := exhaustion_backoff 1 (fun _ => .apiError "rate_limit_exceeded")
    (fun _ => 1) [] 5 (initState "s" "u" ⟨[], [], []⟩) "rate_limit_exceeded"
    rfl (by decide) (by decide) (by decide)
  refine ⟨h.1, ?_, ?_⟩
  · have h2 := h.2.1 (by decide)
    simpa [initState] using h2.2
  · exact h.2.2.2 1 (by norm_num) 1 0 (by norm_num) (by norm_num) (by norm_num)
      (by norm_num)

/-- Claim C7, counterexample: three consecutive malformed-encoding failures exhaust
the repair budget (2) and the third exception propagates — the run aborts
with a fatal error instead of degrading to a tool-result message. -/
theorem tool_use_failed_budget_aborts :
    run_agent "s" "u" 1 (fun _ => .apiError "tool_use_failed") (fun _ => 0) []
      ⟨[], [], []⟩ = .fatal "tool_use_failed" := by decide

/-- Claim C7, amended: an invalid tool-call encoding is retried with a corrective
user message while the 2-retry budget remains; once the budget is exhausted
the next such failure propagates as a fatal error, aborting the run.
Unparsable tool arguments, by contrast, always degrade to a tool-result
error message fed back into the conversation, with no budget and no abort. -/
theorem malformed_recovery (n : ℕ) (env : ℕ → ApiOutcome) (jit : ℕ → ℚ)
    (root : List String) (fuel : ℕ) (st : AgentState) (estr : String)
    (henv : env st.attempt = .apiError estr)
    (hnr : strContains estr "rate_limit_exceeded" = false)
    (htf : strContains estr "tool_use_failed" = true)
    (hc : st.toolCallsMade < max_tool_calls)
    (hr : st.rateLimitHits < max_rate_retries) :
    (st.toolFailRetries < max_tool_fail_retries →
      runLoop n env jit root (fuel + 1) st =
        runLoop n env jit root fuel
          { st with toolFailRetries := st.toolFailRetries + 1,
                    attempt := st.attempt + 1,
                    messages := st.messages ++ [.user correctiveText] }) ∧
    (¬ st.toolFailRetries < max_tool_fail_retries →
      runLoop n env jit root (fuel + 1) st = .fatal estr) ∧
    (∀ (tc : ToolCall) (rest : List ToolCall) (msgs : List ChatMsg) (fs' : FS),
      tc.arguments = none →
      processToolCalls root (tc :: rest) msgs fs' =
        processToolCalls root rest (msgs ++ [.tool tc.id parseErrorText]) fs') := by
  refine ⟨?_, ?_, ?_⟩
  · intro hb
    simp only [runLoop]
    simp [henv, hnr, htf, hc, hr, hb]
  · intro hb
    simp only [runLoop]
    simp [henv, hnr, htf, hc, hr, hb]
  · intro tc rest msgs fs' ha
    rcases tc with ⟨tid, tname, targs⟩
    simp only at ha
    subst ha
    rfl

/-- Witness for the amended C7: budget remaining, budget exhausted, and an
unparsable-arguments tool call, each at a concrete input. -/
theorem malformed_recovery_witness :
    (runLoop 1 (fun _ => .apiError "tool_use_failed") (fun _ => 0) [] (5 + 1)
        (initState "s" "u" ⟨[], [], []⟩) =
      runLoop 1 (fun _ => .apiError "tool_use_failed") (fun _ => 0) [] 5
        { initState "s" "u" ⟨[], [], []⟩ with
            toolFailRetries := (initState "s" "u" ⟨[], [], []⟩).toolFailRetries + 1,
            attempt := (initState "s" "u" ⟨[], [], []⟩).attempt + 1,
            messages := (initState "s" "u" ⟨[], [], []⟩).messages ++
              [.user correctiveText] }) ∧
    processToolCalls [] [⟨"c1", "write_file", none⟩] [] ⟨[], [], []⟩ =
      processToolCalls [] [] [ChatMsg.tool "c1" parseErrorText] ⟨[], [], []⟩ := by
  have h := malformed_recovery 1 (fun _ => .apiError "tool_use_failed")
    (fun _ => 0) [] 5 (initState "s" "u" ⟨[], [], []⟩) "tool_use_failed"
    rfl (by decide) (by decide) (by decide) (by decide)
  refine ⟨h.1 (by decide), ?_⟩
  have h3 := h.2.2 ⟨"c1", "write_file", none⟩ [] [] ⟨[], [], []⟩ rfl
  simpa using h3

lemma loopMeasure_rateLimitStep (n : ℕ) (jit : ℕ → ℚ) (st : AgentState)
    (hr : st.rateLimitHits < max_rate_retries) :
    loopMeasure (rateLimitStep n jit st) < loopMeasure st := by
  unfold max_rate_retries at hr
  unfold loopMeasure rateLimitStep max_tool_calls max_rate_retries
    max_tool_fail_retries
  by_cases hidx : (st.clientIdx + 1) % n = 0 <;> simp [hidx] <;> omega

lemma loopMeasure_toolFailStep (st : AgentState)
    (hf : st.toolFailRetries < max_tool_fail_retries) :
    loopMeasure
      { st with toolFailRetries := st.toolFailRetries + 1,
                attempt := st.attempt + 1,
                messages := st.messages ++ [.user correctiveText] } <
      loopMeasure st := by
  unfold max_tool_fail_retries at hf
  unfold loopMeasure max_tool_calls max_rate_retries max_tool_fail_retries
  simp
  omega

lemma loopMeasure_successStep (st : AgentState) (msgs : List ChatMsg) (fs' : FS)
    (hc : st.toolCallsMade < max_tool_calls) :
    loopMeasure
      { st with cycleCount := 0, toolCallsMade := st.toolCallsMade + 1,
                attempt := st.attempt + 1, messages := msgs, fs := fs' } <
      loopMeasure st := by
  unfold max_tool_calls at hc
  unfold loopMeasure max_tool_calls max_rate_retries max_tool_fail_retries
  simp
  omega

/-- Every run of the loop with fuel strictly above the budget measure ends in
one of the four terminal shapes: a propagated exception, the max-tool-calls
sentinel, the rate-limit sentinel, or the terminal text of a response with no
tool calls. In particular the fuel is never exhausted: every iteration
strictly decreases `loopMeasure`. -/
lemma runLoop_total (n : ℕ) (env : ℕ → ApiOutcome) (jit : ℕ → ℚ)
    (root : List String) :
    ∀ fuel st, loopMeasure st < fuel →
      (∃ e, runLoop n env jit root fuel st = .fatal e) ∨
      (∃ st', runLoop n env jit root fuel st =
        .done "Agent reached max tool calls." st') ∨
      (∃ st', runLoop n env jit root fuel st =
        .done ("Agent aborted: rate limit hit " ++ toString st'.rateLimitHits ++
          " times.") st') ∨
      (∃ st' k c, env k = .ok c [] ∧
        runLoop n env jit root fuel st = .done (c.getD "") st') := by
  intro fuel
  induction fuel with
  | zero => intro st hst; omega
  | succ fuel ih =>
    intro st hst
    by_cases hcond :
        st.toolCallsMade < max_tool_calls ∧ st.rateLimitHits < max_rate_retries
    · rcases henv : env st.attempt with ⟨content, toolCalls⟩ | ⟨estr⟩
      · -- successful API call
        rcases htc : toolCalls with _ | ⟨tc, tcs⟩
        · refine Or.inr (Or.inr (Or.inr
            ⟨{ st with cycleCount := 0,
                       toolCallsMade := st.toolCallsMade + 1,
                       attempt := st.attempt + 1 }, st.attempt, content, ?_, ?_⟩))
          · rw [henv, htc]
          · simp only [runLoop]
            simp [henv, htc, hcond.1, hcond.2]
        · rcases hp : processToolCalls root (tc :: tcs)
              (st.messages ++ [.assistant content (tc :: tcs)]) st.fs
            with e | ⟨msgs', fs'⟩
          · refine Or.inl ⟨e, ?_⟩
            simp only [runLoop]
            simp [henv, htc, hcond.1, hcond.2, hp]
          · have hred : runLoop n env jit root (fuel + 1) st =
                runLoop n env jit root fuel
                  { st with cycleCount := 0,
                            toolCallsMade := st.toolCallsMade + 1,
                            attempt := st.attempt + 1,
                            messages := msgs', fs := fs' } := by
              simp only [runLoop]
              simp [henv, htc, hcond.1, hcond.2, hp]
            rw [hred]
            exact ih _ (by
              have := loopMeasure_successStep st msgs' fs' hcond.1
              omega)
      · -- raised exception
        by_cases hrl : strContains estr "rate_limit_exceeded" = true
        · have hred : runLoop n env jit root (fuel + 1) st =
              runLoop n env jit root fuel (rateLimitStep n jit st) := by
            simp only [runLoop]
            simp [henv, hrl, hcond.1, hcond.2]
          rw [hred]
          exact ih _ (by
            have := loopMeasure_rateLimitStep n jit st hcond.2
            omega)
        · by_cases htf : strContains estr "tool_use_failed" = true ∧
              st.toolFailRetries < max_tool_fail_retries
          · have hred : runLoop n env jit root (fuel + 1) st =
                runLoop n env jit root fuel
                  { st with toolFailRetries := st.toolFailRetries + 1,
                            attempt := st.attempt + 1,
                            messages := st.messages ++ [.user correctiveText] } := by
              simp only [runLoop]
              simp [henv, hrl, htf.1, htf.2, hcond.1, hcond.2]
            rw [hred]
            exact ih _ (by
              have := loopMeasure_toolFailStep st htf.2
              omega)
          · refine Or.inl ⟨estr, ?_⟩
            simp only [runLoop]
            simp [henv, hrl, htf, hcond.1, hcond.2]
    · by_cases hge : st.rateLimitHits ≥ max_rate_retries
      · refine Or.inr (Or.inr (Or.inl ⟨st, ?_⟩))
        simp only [runLoop]
        simp [hcond, hge]
      · refine Or.inr (Or.inl ⟨st, ?_⟩)
        simp only [runLoop]
        simp [hcond, hge]

/-- Claim C8: `run_agent` always terminates (the fuel, one unit per iteration, is
never exhausted, because every iteration strictly decreases the combined
budget measure), and its outcome is one of: a propagated fatal exception, the
`"Agent reached max tool calls."` sentinel after 25 productive calls, the
`"Agent aborted: rate limit hit N times."` sentinel after 30 rate-limit hits,
or the terminal text of an assistant response carrying no tool calls. -/
theorem run_agent_terminates (sp um : String) (n : ℕ) (env : ℕ → ApiOutcome)
    (jit : ℕ → ℚ) (root : List String) (fs : FS) :
    run_agent sp um n env jit root fs ≠ .fuelOut ∧
    ((∃ e, run_agent sp um n env jit root fs = .fatal e) ∨
     (∃ st', run_agent sp um n env jit root fs =
       .done "Agent reached max tool calls." st') ∨
     (∃ st', run_agent sp um n env jit root fs =
       .done ("Agent aborted: rate limit hit " ++ toString st'.rateLimitHits ++
         " times.") st') ∨
     (∃ st' k c, env k = .ok c [] ∧
       run_agent sp um n env jit root fs = .done (c.getD "") st')) := by
  have h := runLoop_total n env jit root
    (loopMeasure (initState sp um fs) + 1) (initState sp um fs) (by omega)
  unfold run_agent
  refine ⟨?_, h⟩
  rcases h with ⟨e, he⟩ | ⟨st', h'⟩ | ⟨st', h'⟩ | ⟨st', k, c, hk, h'⟩
  · simp [he]
  · simp [h']
  · simp [h']
  · simp [h']

set_option maxHeartbeats 1000000 in
lemma build_client_pool_eq (env : String → String) :
    build_client_pool env =
      (if keySlots.filter (fun nm => decide (validCred (env nm))) = []
       then .error "No valid GROQ API keys found. Set GROQ_API_KEY in .env"
       else .ok ((keySlots.filter (fun nm => decide (validCred (env nm)))).map
         (fun nm => pyStrip (env nm)))) := by
  have e2 : ("GROQ_API_KEY_" ++ toString (2 : ℕ)) = "GROQ_API_KEY_2" := by decide
  have e3 : ("GROQ_API_KEY_" ++ toString (3 : ℕ)) = "GROQ_API_KEY_3" := by decide
  have e4 : ("GROQ_API_KEY_" ++ toString (4 : ℕ)) = "GROQ_API_KEY_4" := by decide
  have e5 : ("GROQ_API_KEY_" ++ toString (5 : ℕ)) = "GROQ_API_KEY_5" := by decide
  unfold build_client_pool keySlots
  simp only [List.foldl, e2, e3, e4, e5]
  by_cases h1 : validCred (env "GROQ_API_KEY") <;>
    by_cases h2 : validCred (env "GROQ_API_KEY_2") <;>
      by_cases h3 : validCred (env "GROQ_API_KEY_3") <;>
        by_cases h4 : validCred (env "GROQ_API_KEY_4") <;>
          by_cases h5 : validCred (env "GROQ_API_KEY_5") <;>
            (simp only [validCred] at h1 h2 h3 h4 h5
             simp [validCred, h1, h2, h3, h4, h5, List.filter_cons])

/-- Claim C9: credential pool construction fails with the configuration error
exactly when no slot holds a valid credential (non-empty after stripping and
not a `your_` placeholder); otherwise it returns exactly the valid
credentials, stripped, in slot order. With zero valid credentials the whole
pipeline fails at startup, before any phase conversation is started. -/
theorem build_pool_fails_iff_no_valid_creds (env : String → String) :
    (build_client_pool env =
        .error "No valid GROQ API keys found. Set GROQ_API_KEY in .env" ↔
      keySlots.filter (fun nm => decide (validCred (env nm))) = []) ∧
    (keySlots.filter (fun nm => decide (validCred (env nm))) ≠ [] →
      build_client_pool env =
        .ok ((keySlots.filter (fun nm => decide (validCred (env nm)))).map
          (fun nm => pyStrip (env nm)))) ∧
    (∀ (agentEnv : ℕ → FS → FS) (projectDir : List String) (fs0 : FS),
      keySlots.filter (fun nm => decide (validCred (env nm))) = [] →
      mainPipeline env agentEnv projectDir fs0 =
        .error "No valid GROQ API keys found. Set GROQ_API_KEY in .env") := by
  have hb := build_client_pool_eq env
  refine ⟨⟨?_, ?_⟩, ?_, ?_⟩
  · intro h
    by_contra hf
    rw [hb, if_neg hf] at h
    exact Except.noConfusion h
  · intro hf
    rw [hb, if_pos hf]
  · intro hf
    rw [hb, if_neg hf]
  · intro agentEnv projectDir fs0 hf
    unfold mainPipeline
    rw [hb, if_pos hf]

/-- Witness for C9: three populated slots, of which one is a placeholder;
the pool is the two valid keys, stripped, in slot order. -/
theorem build_pool_witness :
    build_client_pool
        (fun nm => if nm = "GROQ_API_KEY" then " k1 "
                   else if nm = "GROQ_API_KEY_3" then "your_key"
                   else if nm = "GROQ_API_KEY_4" then "k4" else "") =
      .ok ((keySlots.filter (fun nm => decide (validCred
            ((fun nm => if nm = "GROQ_API_KEY" then " k1 "
                        else if nm = "GROQ_API_KEY_3" then "your_key"
                        else if nm = "GROQ_API_KEY_4" then "k4" else "") nm)))).map
        (fun nm => pyStrip
          ((fun nm => if nm = "GROQ_API_KEY" then " k1 "
                      else if nm = "GROQ_API_KEY_3" then "your_key"
                      else if nm = "GROQ_API_KEY_4" then "k4" else "") nm))) :=
  (build_pool_fails_iff_no_valid_creds _).2.1 (by decide)

/-- Claim C1, counterexample: a run in which phases 1a, 1b and 2 produce their
artifacts but the Validator produces nothing: the pipeline does not abort —
the QA Tester's conversation is still started and the run reports success
with `VALIDATION_REPORT.md` absent. -/
theorem unchecked_validator_phase :
    (orchestratorRun
        (fun i f =>
          if i = 0 then (write_file "PRD.md" "prd" (some ["p"]) f).2
          else if i = 1 then (write_file "ARCHITECTURE.md" "arch" (some ["p"]) f).2
          else if i = 2 then (write_file "TASK_LIST.json" "[]" (some ["p"]) f).2
          else f)
        ["p"] ⟨[], [], ["p"]⟩).error = none ∧
    "QA Tester" ∈ (orchestratorRun
        (fun i f =>
          if i = 0 then (write_file "PRD.md" "prd" (some ["p"]) f).2
          else if i = 1 then (write_file "ARCHITECTURE.md" "arch" (some ["p"]) f).2
          else if i = 2 then (write_file "TASK_LIST.json" "[]" (some ["p"]) f).2
          else f)
        ["p"] ⟨[], [], ["p"]⟩).started ∧
    (orchestratorRun
        (fun i f =>
          if i = 0 then (write_file "PRD.md" "prd" (some ["p"]) f).2
          else if i = 1 then (write_file "ARCHITECTURE.md" "arch" (some ["p"]) f).2
          else if i = 2 then (write_file "TASK_LIST.json" "[]" (some ["p"]) f).2
          else f)
        ["p"] ⟨[], [], ["p"]⟩).fs.pathExists ["p", "VALIDATION_REPORT.md"] =
      false := by decide

/-- Claim C1, amended: the pipeline checks an output artifact after the first three
phases only (PRD.md, ARCHITECTURE.md, TASK_LIST.json), aborting with a
phase-specific error before the next phase's conversation starts when one is
missing; once TASK_LIST.json exists, the Developer, Validator and Tester
phases all run unconditionally, with no artifact check. -/
theorem pipeline_gates_first_three_phases (agentEnv : ℕ → FS → FS)
    (projectDir : List String) (fs0 : FS) :
    ((phaseFS agentEnv projectDir fs0 0).pathExists
        (projectDir ++ ["PRD.md"]) = false →
      orchestratorRun agentEnv projectDir fs0 =
        { error := some "PRD.md not created by Project Manager agent.",
          started := ["Project Manager"],
          fs := phaseFS agentEnv projectDir fs0 0 }) ∧
    ((phaseFS agentEnv projectDir fs0 0).pathExists
        (projectDir ++ ["PRD.md"]) = true →
      (phaseFS agentEnv projectDir fs0 1).pathExists
        (projectDir ++ ["ARCHITECTURE.md"]) = false →
      orchestratorRun agentEnv projectDir fs0 =
        { error := some "ARCHITECTURE.md not created by Architect agent.",
          started := ["Project Manager", "Architect"],
          fs := phaseFS agentEnv projectDir fs0 1 }) ∧
    ((phaseFS agentEnv projectDir fs0 0).pathExists
        (projectDir ++ ["PRD.md"]) = true →
      (phaseFS agentEnv projectDir fs0 1).pathExists
        (projectDir ++ ["ARCHITECTURE.md"]) = true →
      (phaseFS agentEnv projectDir fs0 2).pathExists
        (projectDir ++ ["TASK_LIST.json"]) = false →
      orchestratorRun agentEnv projectDir fs0 =
        { error := some "TASK_LIST.json not created by Team Lead agent.",
          started := ["Project Manager", "Architect", "Team Lead"],
          fs := phaseFS agentEnv projectDir fs0 2 }) ∧
    ((phaseFS agentEnv projectDir fs0 0).pathExists
        (projectDir ++ ["PRD.md"]) = true →
      (phaseFS agentEnv projectDir fs0 1).pathExists
        (projectDir ++ ["ARCHITECTURE.md"]) = true →
      (phaseFS agentEnv projectDir fs0 2).pathExists
        (projectDir ++ ["TASK_LIST.json"]) = true →
      orchestratorRun agentEnv projectDir fs0 =
        { error := none,
          started := ["Project Manager", "Architect", "Team Lead", "Developer",
            "Backend Logic Validator", "QA Tester"],
          fs := phaseFS agentEnv projectDir fs0 5 }) := by
  have E0 : phaseFS agentEnv projectDir fs0 0 =
      agentEnv 0 (PROJECT_SUBDIRS.foldl
        (fun f sd => f.makedirs (projectDir ++ [sd])) fs0) := rfl
  have E1 : phaseFS agentEnv projectDir fs0 1 =
      agentEnv 1 (phaseFS agentEnv projectDir fs0 0) := rfl
  have E2 : phaseFS agentEnv projectDir fs0 2 =
      agentEnv 2 (phaseFS agentEnv projectDir fs0 1) := rfl
  have E3 : phaseFS agentEnv projectDir fs0 3 =
      agentEnv 3 (phaseFS agentEnv projectDir fs0 2) := rfl
  have E4 : phaseFS agentEnv projectDir fs0 4 =
      agentEnv 4 (phaseFS agentEnv projectDir fs0 3) := rfl
  have E5 : phaseFS agentEnv projectDir fs0 5 =
      agentEnv 5 (phaseFS agentEnv projectDir fs0 4) := rfl
  refine ⟨?_, ?_, ?_, ?_⟩
  · intro h0
    rw [E0] at h0
    unfold orchestratorRun
    simp [h0, E0]
  · intro h0 h1
    rw [E0] at h0
    rw [E1, E0] at h1
    unfold orchestratorRun
    simp [h0, h1, E1, E0]
  · intro h0 h1 h2
    rw [E0] at h0
    rw [E1, E0] at h1
    rw [E2, E1, E0] at h2
    unfold orchestratorRun
    simp [h0, h1, h2, E2, E1, E0]
  · intro h0 h1 h2
    rw [E0] at h0
    rw [E1, E0] at h1
    rw [E2, E1, E0] at h2
    unfold orchestratorRun
    simp [h0, h1, h2, E5, E4, E3, E2, E1, E0]

/-- Witness for the amended C1: with agents that write nothing, the run
aborts after phase 1a with only the Project Manager's conversation started. -/
theorem pipeline_gates_witness :
    orchestratorRun (fun _ f => f) ["p"] ⟨[], [], ["p"]⟩ =
      { error := some "PRD.md not created by Project Manager agent.",
        started := ["Project Manager"],
        fs := phaseFS (fun _ f => f) ["p"] ⟨[], [], ["p"]⟩ 0 } :=
  (pipeline_gates_first_three_phases (fun _ f => f) ["p"] ⟨[], [], ["p"]⟩).1
    (by decide)

lemma length_takeRight_le (k : ℕ) (l : List α) : (takeRight k l).length ≤ k := by
  unfold takeRight
  rw [List.length_drop]
  omega

lemma takeRight_all {k : ℕ} {l : List α} (h : l.length ≤ k) :
    takeRight k l = l := by
  unfold takeRight
  rw [Nat.sub_eq_zero_of_le h, List.drop_zero]

lemma takeRight_append_right (k : ℕ) (p rest : List α) (h : k ≤ rest.length) :
    takeRight k (p ++ rest) = takeRight k rest := by
  unfold takeRight
  have hl : (p ++ rest).length - k = p.length + (rest.length - k) := by
    rw [List.length_append]; omega
  rw [hl, List.drop_append]

lemma takeRight_takeRight_append {j k : ℕ} (hjk : j ≤ k) (l l₂ : List α) :
    takeRight j (takeRight k l ++ l₂) = takeRight j (l ++ l₂) := by
  rcases le_or_lt l.length k with h | h
  · rw [takeRight_all h]
  · have hlen : (takeRight k l).length = k := by
      unfold takeRight; rw [List.length_drop]; omega
    have hsplit : l.take (l.length - k) ++ takeRight k l = l := by
      unfold takeRight; exact List.take_append_drop _ _
    have hj : j ≤ (takeRight k l ++ l₂).length := by
      rw [List.length_append, hlen]; omega
    have h2 := takeRight_append_right j (l.take (l.length - k))
      (takeRight k l ++ l₂) hj
    rw [← List.append_assoc, hsplit] at h2
    exact h2.symm

lemma replay_messages_aux :
    ∀ (evs : List (String × String × Option String)) (s : VizState),
      s.messages.length ≤ 50 →
      (evs.foldl updFold s).messages.length ≤ 50 ∧
      (evs.foldl updFold s).messages =
        takeRight 50 (s.messages ++ loggedLines evs) := by
  intro evs
  induction evs with
  | nil =>
    intro s hs
    refine ⟨hs, ?_⟩
    simp only [List.foldl_nil, loggedLines, List.filterMap_nil, List.append_nil]
    exact (takeRight_all hs).symm
  | cons ev evs ih =>
    intro s hs
    rcases hee : ev.2.2 with _ | m
    · have hupd : (updFold s ev).messages = s.messages := by
        unfold updFold VizState.update
        rw [hee]
      have hlog : loggedLines (ev :: evs) = loggedLines evs := by
        unfold loggedLines
        simp [hee]
      obtain ⟨ih1, ih2⟩ := ih (updFold s ev) (by rw [hupd]; exact hs)
      refine ⟨ih1, ?_⟩
      simp only [List.foldl_cons]
      rw [ih2, hupd, hlog]
    · by_cases hne : m = ""
      · have hupd : (updFold s ev).messages = s.messages := by
          unfold updFold VizState.update
          rw [hee]
          simp [hne]
        have hlog : loggedLines (ev :: evs) = loggedLines evs := by
          unfold loggedLines
          simp [hee, hne]
        obtain ⟨ih1, ih2⟩ := ih (updFold s ev) (by rw [hupd]; exact hs)
        refine ⟨ih1, ?_⟩
        simp only [List.foldl_cons]
        rw [ih2, hupd, hlog]
      · have hupd : (updFold s ev).messages =
            takeRight 50 (s.messages ++ [m]) := by
          unfold updFold VizState.update
          rw [hee]
          simp [hne]
        have hlog : loggedLines (ev :: evs) = m :: loggedLines evs := by
          unfold loggedLines
          simp [hee, hne]
        obtain ⟨ih1, ih2⟩ :=
          ih (updFold s ev) (by rw [hupd]; exact length_takeRight_le _ _)
        refine ⟨ih1, ?_⟩
        simp only [List.foldl_cons]
        rw [ih2, hupd, hlog,
          takeRight_takeRight_append (le_refl 50) (s.messages ++ [m]),
          List.append_assoc]
        simp

/-- C10: for every history of `update` calls, `get_snapshot` returns the
current agent label, the current task text, and the at most 5 most recently
appended log lines, even though the state retains up to the 50 most recent
lines internally. -/
theorem snapshot_caps_logs_at_five
    (evs : List (String × String × Option String)) :
    (VizState.get_snapshot (replayViz evs)).agent = (replayViz evs).active_agent ∧
    (VizState.get_snapshot (replayViz evs)).task = (replayViz evs).current_task ∧
    (VizState.get_snapshot (replayViz evs)).logs.length ≤ 5 ∧
    (VizState.get_snapshot (replayViz evs)).logs =
      takeRight 5 (loggedLines evs) ∧
    (replayViz evs).messages = takeRight 50 (loggedLines evs) ∧
    (replayViz evs).messages.length ≤ 50 := by
  obtain ⟨h50, hmsg⟩ :=
    replay_messages_aux evs VizState.initial (by simp [VizState.initial])
  have hmsg' : (replayViz evs).messages = takeRight 50 (loggedLines evs) := by
    unfold replayViz
    rw [hmsg]
    simp [VizState.initial]
  refine ⟨rfl, rfl, ?_, ?_, hmsg', ?_⟩
  · exact length_takeRight_le 5 (replayViz evs).messages
  · show takeRight 5 (replayViz evs).messages = takeRight 5 (loggedLines evs)
    rw [hmsg']
    have h := takeRight_takeRight_append
      (by norm_num : (5 : ℕ) ≤ 50) (loggedLines evs) ([] : List String)
    simpa using h
  · rw [hmsg']
    exact length_takeRight_le 50 (loggedLines evs)
